/-
  Verification of the happyfool-bot command dispatcher and mini-game engines.

  Shallow embedding of the Python source (happyfool_bot/bot.py,
  happyfool_bot/utils.py, happyfool_bot/db/dals.py) into Lean 4.
  Pure helpers become Lean functions; the stateful command handlers become
  explicit state-passing functions over a `BotState` / `RaffleState` record;
  Python exceptions become `Option` / `Except`.
-/
import Mathlib

namespace HappyFool

/-! ## Python primitives used by the source -/

/-- Python whitespace characters, as recognised by `str.split()` with no
separator argument. -/
def pyIsSpace (c : Char) : Bool :=
  c = ' ' || c = '\t' || c = '\n' || c = '\r' || c = '\x0b' || c = '\x0c'

/-- `str.split(maxsplit=1)` on a list of characters: strip leading
whitespace; the first token is the run of non-whitespace characters; the
remainder keeps everything after the following whitespace run (trailing
whitespace of the remainder is preserved, as in Python). -/
def pySplit1List (l : List Char) : List (List Char) :=
  let l1 := l.dropWhile pyIsSpace
  if l1 = [] then []
  else
    let first := l1.takeWhile (fun c => !pyIsSpace c)
    let rest := (l1.dropWhile (fun c => !pyIsSpace c)).dropWhile pyIsSpace
    if rest = [] then [first] else [first, rest]

/-- `content.split(maxsplit=1)` on strings. -/
def pySplit1 (s : String) : List String :=
  (pySplit1List s.toList).map List.asString

/-- The tail of a Python `digitpart` after its first digit: each
underscore must be followed by a digit (so no doubled and no trailing
underscore) and every other character is a digit. -/
def pyDigitRest : List Char → Bool
  | [] => true
  | '_' :: c :: rest => c.isDigit && pyDigitRest rest
  | '_' :: [] => false
  | c :: rest => c.isDigit && pyDigitRest rest

/-- A Python integer-literal `digitpart`, `digit (["_"] digit)*`: a
non-empty digit string with single underscores allowed between digits. -/
def pyDigitPart : List Char → Bool
  | [] => false
  | c :: rest => c.isDigit && pyDigitRest rest

/-- Value of a Python `digitpart`, `none` when the characters do not form
one (underscores between digits are ignored, as in `int("1_0") = 10`). -/
def digitsToInt? (ds : List Char) : Option Int :=
  if pyDigitPart ds then
    some (Int.ofNat ((ds.filter (fun c => c ≠ '_')).foldl
      (fun a c => a * 10 + (c.toNat - '0'.toNat)) 0))
  else
    none

/-- Python `int(s)` on a string: strip surrounding whitespace, optional
sign, then a digitpart (digits with single underscores allowed between
them); `none` models the `ValueError`.  Digits are the ASCII digits;
Python additionally accepts non-ASCII Unicode decimal digits, which are
not modelled. -/
def pyInt? (s : String) : Option Int :=
  let l := ((s.toList.dropWhile pyIsSpace).reverse.dropWhile pyIsSpace).reverse
  match l with
  | '+' :: ds => digitsToInt? ds
  | '-' :: ds => (digitsToInt? ds).map Int.neg
  | ds => digitsToInt? ds

/-- Non-overlapping left-to-right replacement of a literal pattern, the
behaviour of `re.sub` on the escaped-literal patterns the bot uses.  The
first argument is fuel (the input length suffices), making the recursion
structural. -/
def replaceAllAux (pat repl : List Char) : Nat → List Char → List Char
  | _, [] => []
  | 0, l => l
  | fuel + 1, c :: rest =>
    if pat ≠ [] ∧ pat.isPrefixOf (c :: rest) then
      repl ++ replaceAllAux pat repl fuel ((c :: rest).drop pat.length)
    else
      c :: replaceAllAux pat repl fuel rest

/-- `re.sub` with a literal pattern and a plain replacement string. -/
def pyReSubLiteral (pat repl s : String) : String :=
  (replaceAllAux pat.toList repl.toList s.toList.length s.toList).asString

/-- A Python runtime value as far as the slots loop needs it: the reel
draws are `int`s while the configured super emote is a `str`. -/
inductive PyVal
  | int (n : Int)
  | str (s : String)
deriving DecidableEq

/-- Python `==` between the values above: an `int` never equals a `str`. -/
def pyEq : PyVal → PyVal → Bool
  | .int a, .int b => a == b
  | .str a, .str b => a == b
  | _, _ => false

/-! ## utils.isolate_command -/

/-- `utils.isolate_command(prefix, message)`: if the message starts with the
prefix (the prefix strings used by the bot contain no regex
metacharacters, so `re.search(r"^%s" % prefix, message)` is a literal
prefix test), take the first whitespace token, lower-case it, keep only
`[a-z0-9]`, and strip a leading prefix; otherwise `None`. -/
def isolate_command (pfx message : String) : Option String :=
  if pfx.toList.isPrefixOf message.toList then
    let parts := pySplit1 message
    let command := parts.headD ""
    let command := (command.toList.map Char.toLower).filter
      (fun c => ('a' ≤ c && c ≤ 'z') || ('0' ≤ c && c ≤ '9'))
    let command :=
      if pfx.toList.isPrefixOf command then command.drop pfx.length
      else command
    some command.asString
  else
    none

/-! ## Template rendering and the touser argument (Bot.user_command) -/

/-- The three `re.sub` calls of `Bot.user_command`, in source order: the
patterns are literal apart from escaping, so each is a replace-all. -/
def renderReply (text : String) (count : Int) (user to_user : String) : String :=
  let r := pyReSubLiteral "$(count)" (toString count) text
  let r := pyReSubLiteral "$(user)" user r
  pyReSubLiteral "$(touser)" to_user r

/-- `to_user` as computed by `Bot.user_command`:
`(_, *arguments) = content.split(maxsplit=1)`, then `arguments[0]`,
falling back to the invoking user's name on `IndexError`. -/
def touserOf (content user : String) : String :=
  let arguments := (pySplit1 content).drop 1
  match arguments with
  | a :: _ => a
  | [] => user

/-! ## Bets game outcome (Bot.bets) -/

/-- Result band of one bets draw. -/
inductive BetsResult
  | lose
  | double
  | triple
deriving DecidableEq

/-- The chance-sum sanity check of `Bot.bets`: if
`double + triple + lose ≠ 100` the placeholder chances `45/5/50` are used. -/
def bets_chances (double_chance triple_chance lose_chance : Int) :
    Int × Int × Int :=
  if double_chance + triple_chance + lose_chance = 100 then
    (double_chance, triple_chance, lose_chance)
  else
    (45, 5, 50)

/-- The outcome branch of `Bot.bets` on the drawn number
(`random.randint(1, 100)`):
`number_bet <= lose_chance` → loss;
`lose_chance < number_bet < 100 - triple_chance` → double;
otherwise → triple. -/
def bets_outcome (lose_chance triple_chance number_bet : Int) : BetsResult :=
  if number_bet ≤ lose_chance then .lose
  else if lose_chance < number_bet ∧ number_bet < 100 - triple_chance then .double
  else .triple

/-! ## Slots payout (Bot.slots) -/

/-- The payout loop of `Bot.slots`: iterate over the three drawn reel
indices; a count of 3 pays `bet * 5` if the drawn value `==` the configured
super emote (a Python `int`-vs-`str` comparison) and `bet * 3` otherwise; a
count of 2 pays `bet * 2`; otherwise move to the next draw.  `none` is the
`points_win = False` loss case.  (With a positive bet every payout is
truthy, so the Python truthiness test on `points_win` agrees with this
`Option`.) -/
def slotsLoop (bet : Int) (superEmote : PyVal) (slots : List Int) :
    List Int → Option Int
  | [] => none
  | emote :: rest =>
    if slots.count emote = 3 then
      if pyEq (.int emote) superEmote then some (bet * 5)
      else some (bet * 3)
    else if slots.count emote = 2 then some (bet * 2)
    else slotsLoop bet superEmote slots rest

/-- Points won by one slots spin with reel draws `s1 s2 s3`
(each `random.randint(1, len(emotes)) - 1`, an index into
`slots_emotes + [slots_super_emote]`). -/
def slots_points_win (bet : Int) (superEmote : PyVal) (s1 s2 s3 : Int) :
    Option Int :=
  slotsLoop bet superEmote [s1, s2, s3] [s1, s2, s3]

/-- The default reel of `config.py`: six ordinary emotes, with the super
emote appended by `Bot.slots`, so draws range over indices 0–6 and the
super emote sits at index 6. -/
def defaultSlotsEmotes : List String :=
  ["BibleThump", "KEKW", "Kreygasm", "LUL", "monkaS", "DxCat", "CoolStoryBob"]

/-! ## UserPointsDAL (db/dals.py)

The `user_points` table is modelled as a partial map from user name to
stored points; `none` means the row is absent.  Each DAL method that finds
no row first calls `add_user` (inserting a row with points 0) and then
re-runs itself, which lands in the row-present branch with points 0; the
recursion is unfolded below. -/

/-- The points table: user name to stored points, `none` when absent. -/
def PointsDB : Type := String → Option Int

/-- `UserPointsDAL.add_user`: insert a row with zeroed stats. -/
def add_user (db : PointsDB) (user : String) : PointsDB :=
  fun v => if v = user then some 0 else db v

/-- Store `p` as `user`'s points (the `UPDATE ... WHERE user = user`). -/
def setPoints (db : PointsDB) (user : String) (p : Int) : PointsDB :=
  fun v => if v = user then some p else db v

/-- `UserPointsDAL.get_points`: the stored points, 0 when the row is
absent. -/
def get_points (db : PointsDB) (user : String) : Int :=
  (db user).getD 0

/-- `UserPointsDAL.increment_points`: add `quantity` to the stored points;
a missing row is first created with 0 points (recursion unfolded). -/
def increment_points (db : PointsDB) (user : String) (quantity : Int) :
    PointsDB :=
  match db user with
  | some p => setPoints db user (p + quantity)
  | none => setPoints (add_user db user) user (0 + quantity)

/-- `UserPointsDAL.decrement_points`: subtract `quantity`, storing 0 when
`points - quantity <= 0` (the "floor is always 0" branch); a missing row is
first created with 0 points (recursion unfolded). -/
def decrement_points (db : PointsDB) (user : String) (quantity : Int) :
    PointsDB :=
  match db user with
  | some p =>
      setPoints db user (if p - quantity ≤ 0 then 0 else p - quantity)
  | none =>
      setPoints (add_user db user) user
        (if 0 - quantity ≤ 0 then 0 else 0 - quantity)

/-- `UserPointsDAL.get_rank`: iterate the rank table in order, keeping the
last label whose minimum is ≤ `points`; `"Sem rank"` when none matched.
The table is the configured ordered label→minimum mapping, with the
minima already through Python's `int(minimum)`. -/
def get_rank (ranks : List (String × Int)) (points : Int) : String :=
  let result := ranks.foldl
    (fun acc rm => if points ≥ rm.2 then some rm.1 else acc)
    (none : Option String)
  match result with
  | none => "Sem rank"
  | some r => r

/-! ## Custom and SFX command records (db/models.py rows) -/

/-- A `user_commands` row, restricted to the fields the dispatcher reads. -/
structure UCmd where
  id : Nat
  text : String
  count : Int
deriving DecidableEq

/-- An `sfx_commands` row, restricted to the fields the dispatcher reads. -/
structure SfxRec where
  id : Nat
  audio_file : String
  cost : Int
  user_cooldown : Int
  global_cooldown : Int
  count : Int
deriving DecidableEq

/-- `increment_counter` on the `user_commands` table: bump the counter of
the row with the given id. -/
def incrementUCmd (id : Nat) (cmds : List (String × UCmd)) :
    List (String × UCmd) :=
  cmds.map (fun nr => if nr.2.id = id then (nr.1, { nr.2 with count := nr.2.count + 1 }) else nr)

/-- `increment_counter` on the `sfx_commands` table: bump the counter of
the row with the given id. -/
def incrementSfx (id : Nat) (cmds : List (String × SfxRec)) :
    List (String × SfxRec) :=
  cmds.map (fun nr => if nr.2.id = id then (nr.1, { nr.2 with count := nr.2.count + 1 }) else nr)

/-! ## Dispatcher state (Bot) -/

/-- The bot state the fallback dispatcher touches: the two command tables,
the two in-memory sfx cooldown dictionaries, the points table, the chat
replies sent so far and the sounds played so far. -/
structure BotState where
  userCommands : List (String × UCmd)
  sfxCommands : List (String × SfxRec)
  global_cd : String → Option Int
  user_cd : String → String → Option Int
  points : PointsDB
  sent : List String
  sounds : List String

/-- `Bot.user_command`: parse the command name; when a custom command of
that name exists, increment its counter and send the rendered template
(the `$(count)` value is the one fetched before the increment). -/
def user_command (pfx : String) (s : BotState) (user content : String) :
    BotState :=
  match isolate_command pfx content with
  | none => s
  | some command =>
    if command = "" then s
    else
      match s.userCommands.lookup command with
      | none => s
      | some rec =>
        let to_user := touserOf content user
        let reply := renderReply rec.text rec.count user to_user
        { s with
          userCommands := incrementUCmd rec.id s.userCommands,
          sent := s.sent ++ [reply] }

/-- `Bot.sfx_command`: parse the command name; when a sound command of that
name exists, check the global cooldown, the per-user cooldown (both
defaulting to 1 on `KeyError`) and, with the points system enabled, the
user's balance against the cost — each failed check returns with no state
change and no reply.  On success: debit the cost (when points are
enabled), increment the invocation counter, set both cooldown timestamps
to `time_now` and play the audio file. -/
def sfx_command (points_enabled : Bool) (pfx : String) (s : BotState)
    (user content : String) (time_now : Int) : BotState :=
  match isolate_command pfx content with
  | none => s
  | some command =>
    if command = "" then s
    else
      match s.sfxCommands.lookup command with
      | none => s
      | some rec =>
        let global_cooldown := (s.global_cd command).getD 1
        let user_cooldown := (s.user_cd user command).getD 1
        if time_now - global_cooldown < rec.global_cooldown then s
        else if time_now - user_cooldown < rec.user_cooldown then s
        else
          let user_points := get_points s.points user
          if points_enabled ∧ user_points < rec.cost then s
          else
            let points' :=
              if points_enabled then decrement_points s.points user rec.cost
              else s.points
            { s with
              points := points',
              sfxCommands := incrementSfx rec.id s.sfxCommands,
              global_cd := fun c => if c = command then some time_now else s.global_cd c,
              user_cd := fun u c =>
                if u = user ∧ c = command then some time_now else s.user_cd u c,
              sounds := s.sounds ++ [rec.audio_file] }

/-- `Bot.event_command_error` on `CommandNotFound`: run the custom-command
handler and then, unconditionally, the sfx handler on the same message. -/
def event_command_error (points_enabled : Bool) (pfx : String) (s : BotState)
    (user content : String) (time_now : Int) : BotState :=
  sfx_command points_enabled pfx (user_command pfx s user content) user
    content time_now

/-! ## Bot.sfx_add optional arguments -/

/-- The optional arguments `SFXCommandDAL.create_command` receives, with
the signature defaults `cost=60, user_cooldown=60, global_cooldown=60`. -/
structure SfxOpts where
  cost : Int
  user_cooldown : Int
  global_cooldown : Int
deriving DecidableEq

/-- One `try: kvargs[k] = int(command[i]) except IndexError: pass` block of
`Bot.sfx_add`: a missing token falls back to the DAL default, while a
present token that `int()` cannot parse raises an uncaught `ValueError`. -/
def parseOptArg (command : List String) (i : Nat) (dflt : Int) :
    Except Unit Int :=
  match command.get? i with
  | none => .ok dflt
  | some a =>
    match pyInt? a with
    | some n => .ok n
    | none => .error ()

/-- The three optional-argument blocks of `Bot.sfx_add`, in source order,
applied to the token list after `add` (so `command[0]` is the sfx name and
`command[1]` the audio file); the result is what `create_command` stores. -/
def sfx_add_parse_opts (command : List String) : Except Unit SfxOpts :=
  match parseOptArg command 2 60 with
  | .error e => .error e
  | .ok cost =>
    match parseOptArg command 3 60 with
    | .error e => .error e
    | .ok ucd =>
      match parseOptArg command 4 60 with
      | .error e => .error e
      | .ok gcd => .ok ⟨cost, ucd, gcd⟩

/-! ## Raffle engine (Bot.raffle_*) -/

/-- The in-memory raffle state of `Bot`. -/
structure RaffleState where
  enabled : Bool
  subOnly : Bool
  wordkey : String
  participants : List String
  picked : List String
  lastpick : String
deriving DecidableEq

/-- One raffle-relevant event: a broadcaster `raffle start <kw>` /
`raffle startsub <kw>` / `raffle stop` / `raffle pick` (with the value the
random draw takes), or a chat message (author, content, subscriber flag)
reaching the keyword check of `event_message`. -/
inductive RaffleEvent
  | start (kw : String)
  | startsub (kw : String)
  | stop
  | pick (i : Nat)
  | msg (user content : String) (isSub : Bool)
deriving DecidableEq

/-- `Bot.raffle_start`: enable the raffle, reset both lists, set the
keyword.  (`startsub` first sets the subscriber-only flag; plain `start`
leaves it as it was, as in the source.) -/
def raffle_start (s : RaffleState) (kw : String) : RaffleState :=
  { s with enabled := true, participants := [], picked := [], wordkey := kw }

/-- `Bot.raffle_add_participant`: append the user unless already in the
participant list (the picked list is not consulted). -/
def raffle_add_participant (s : RaffleState) (user : String) : RaffleState :=
  if user ∈ s.participants then s
  else { s with participants := s.participants ++ [user] }

/-- `Bot.raffle_pick` with random draw `i` (`random.randint` always yields
`i < participants.length`; other values leave the state unchanged): the
drawn participant is removed from the pool (`list.remove`, first
occurrence), appended to the picked list and recorded as last pick.  An
empty pool only produces the "no participants left" reply. -/
def raffle_pick (s : RaffleState) (i : Nat) : RaffleState :=
  if s.participants.length > 0 then
    match s.participants.get? i with
    | some user_pick =>
      { s with
        participants := s.participants.erase user_pick,
        picked := s.picked ++ [user_pick],
        lastpick := user_pick }
    | none => s
  else s

/-- One step of the raffle system: the `raffle` sub-command dispatch of
`Bot.raffle` plus the keyword check of `Bot.event_message` (a message
enrolls its author while a raffle runs, its content equals the keyword
and, in subscriber-only mode, the author is a subscriber). -/
def raffle_step (s : RaffleState) : RaffleEvent → RaffleState
  | .start kw => raffle_start s kw
  | .startsub kw => raffle_start { s with subOnly := true } kw
  | .stop => { s with enabled := false }
  | .pick i => raffle_pick s i
  | .msg user content isSub =>
    if s.enabled then
      if content = s.wordkey then
        if s.subOnly then
          if isSub then raffle_add_participant s user else s
        else raffle_add_participant s user
      else s
    else s

/-- A whole raffle run: fold the events over the state. -/
def raffle_run (s : RaffleState) (events : List RaffleEvent) : RaffleState :=
  events.foldl raffle_step s

/-- The raffle state at bot start-up. -/
def raffle_init : RaffleState :=
  { enabled := false, subOnly := false, wordkey := ""
    participants := [], picked := [], lastpick := "" }

/-! ## Joke command (Bot.piadaruim) -/

/-- The draws `random.randint(0, quantity)` can produce in `Bot.piadaruim`,
where `quantity = len(lines)`: both bounds are inclusive. -/
def piadaruim_draw_possible (lines : List String) (draw : Nat) : Prop :=
  draw ≤ lines.length

instance (lines : List String) (draw : Nat) :
    Decidable (piadaruim_draw_possible lines draw) :=
  Nat.decLe _ _

/-- `lines[line_out]` of `Bot.piadaruim`, totalised: `none` is the
`IndexError`. -/
def piadaruim_line (lines : List String) (draw : Nat) : Option String :=
  lines.get? draw

/-! ## Specification-side definition for the rank function

Written from the specification's words ("the label of the last threshold ≤
points when iterating the table in its given order; with an empty or
all-exceeding table, `"no rank"`"), to be compared with `get_rank`. -/

/-- The rank the specification describes: the last entry in table order
whose minimum is ≤ the points, i.e. the first such entry of the reversed
table; the bot's "no rank" label when there is none. -/
def rank_spec (ranks : List (String × Int)) (points : Int) : String :=
  match ranks.reverse.find? (fun rm => decide (rm.2 ≤ points)) with
  | some rm => rm.1
  | none => "Sem rank"

/-! ## Concrete fixtures used by counterexamples and witnesses -/

/-- A points table with a single row: alice holds 50 points. -/
def alicePoints50 : PointsDB :=
  fun v => if v = "alice" then some 50 else none

/-- A bot state holding both a custom command and a sound command named
`foo`; the sound has zero cost and zero cooldowns. -/
def dispatchCexState : BotState :=
  { userCommands := [("foo", ⟨1, "hello", 0⟩)]
    sfxCommands := [("foo", ⟨1, "horn.mp3", 0, 0, 0, 0⟩)]
    global_cd := fun _ => none
    user_cd := fun _ _ => none
    points := fun _ => none
    sent := []
    sounds := [] }

/-- A bot state holding only a custom command named `foo`. -/
def dispatchOnlyCustomState : BotState :=
  { userCommands := [("foo", ⟨1, "hello", 0⟩)]
    sfxCommands := []
    global_cd := fun _ => none
    user_cd := fun _ _ => none
    points := fun _ => none
    sent := []
    sounds := [] }

/-- A bot state where alice used the sound `horn` (user cooldown 60 s) at
time 950, so a second use at time 1000 is still cooling down. -/
def sfxCooldownState : BotState :=
  { userCommands := []
    sfxCommands := [("horn", ⟨1, "horn.mp3", 0, 60, 60, 0⟩)]
    global_cd := fun c => if c = "horn" then some 10 else none
    user_cd := fun u c => if u = "alice" ∧ c = "horn" then some 950 else none
    points := fun _ => none
    sent := []
    sounds := [] }

/-- A running raffle right after `a` was picked: `a` is in the picked list
and out of the pool, `b` still waits. -/
def raffleAfterPickState : RaffleState :=
  { enabled := true, subOnly := false, wordkey := "k"
    participants := ["b"], picked := ["a"], lastpick := "a" }

/-! # Theorems -/

/-- C1: in the slots game a draw of three super symbols does not pay the
stake × 5 jackpot.  With the default reel, the super emote `CoolStoryBob`
sits at index 6, and the draw `(6, 6, 6)` (reel draws `randint(1,7) = 7`
three times) pays stake × 3 — the three-of-a-kind-ordinary payout —
because the loop compares the integer reel index with the super-emote
string, which is never equal in Python, leaving the jackpot branch
unreachable.  The claim (and the source's own jackpot message) says this
draw pays stake × 5. -/
theorem slots_super_triple_not_jackpot :
    defaultSlotsEmotes.get? 6 = some "CoolStoryBob" ∧
    slots_points_win 60 (.str "CoolStoryBob") 6 6 6 = some (60 * 3) ∧
    slots_points_win 60 (.str "CoolStoryBob") 6 6 6 ≠ some (60 * 5) := by
  decide

/-- C3 counterexample: with `lose_chance = 50` and `triple_chance = 5`,
the draw 95 is scored as a triple payout, not the double payout the
claim's band `[51, 95]` demands — the source compares
`number_bet < 100 - triple_chance` strictly. -/
theorem bets_draw95_triple_cex :
    bets_outcome 50 5 95 = BetsResult.triple ∧
    BetsResult.triple ≠ BetsResult.double := by
  decide

/-- C4 counterexample: an `sfx_add` invocation whose cost argument is
present but not numeric (`!sfx add horn horn.mp3 abc`) raises an uncaught
`ValueError` instead of defaulting to 60 — only `IndexError` is caught —
so the operation fails and no command is created. -/
theorem sfx_add_nonnumeric_fails_cex :
    sfx_add_parse_opts ["horn", "horn.mp3", "abc"] = .error () ∧
    (Except.error () : Except Unit SfxOpts) ≠ .ok ⟨60, 60, 60⟩ :=
  ⟨rfl, fun h => Except.noConfusion h⟩

/-- C5 counterexample: in the message `!hug alice bob` two tokens follow
the command, and `$(touser)` is replaced by the whole remainder
`"alice bob"`, not by the first token `"alice"` — `user_command` splits
the content with `maxsplit=1`. -/
theorem touser_whole_remainder_cex :
    renderReply "$(touser)" 0 "carol" (touserOf "!hug alice bob" "carol")
        = "alice bob" ∧
    ("alice bob" : String) ≠ "alice" := by
  exact ⟨by decide, by decide⟩

/-- C6 counterexample: in a single raffle run, `a` enters, is picked, then
sends the keyword again (which `raffle_add_participant` accepts, checking
only the current pool) and is picked a second time — the picked list ends
as `["a", "a"]`. -/
theorem raffle_repick_cex :
    (raffle_run raffle_init
      [.start "k", .msg "a" "k" false, .pick 0,
       .msg "a" "k" false, .pick 0]).picked = ["a", "a"] := by
  decide

/-- C7 counterexample: incrementing alice's 50-point balance by the
quantity −100 (reachable through the broadcaster command
`!points add alice -100`, since `int("-100")` parses) stores −50, a
negative balance. -/
theorem points_negative_balance_cex :
    increment_points alicePoints50 "alice" (-100) "alice" = some (-50) ∧
    (-50 : Int) < 0 := by
  exact ⟨by decide, by decide⟩

/-- C2 counterexample: the message `!foo` matches the custom command
`foo`, whose reply is sent — and the sound-effect lookup is still
attempted on the same message: the sound command `foo` also fires and its
audio file is played, because `event_command_error` calls both handlers
unconditionally. -/
theorem dispatcher_sfx_still_attempted_cex :
    (event_command_error false "!" dispatchCexState "alice" "!foo" 100).sent
        = ["hello"] ∧
    (event_command_error false "!" dispatchCexState "alice" "!foo" 100).sounds
        = ["horn.mp3"] := by
  exact ⟨by decide, by decide⟩

/-- C10: the joke command draws `randint(0, len(lines))` with an inclusive
upper bound, so for every non-empty joke file the draw `len(lines)` is
possible and its line lookup is out of range — the totalised indexing
returns no line there. -/
theorem piadaruim_overflow_draw (lines : List String) (h : lines ≠ []) :
    piadaruim_draw_possible lines lines.length ∧
    piadaruim_line lines lines.length = none :=
  ⟨le_refl _, List.get?_eq_none.mpr (le_refl _)⟩

/-- Witness for C10 at the singleton joke file. -/
theorem piadaruim_overflow_draw_witness :
    piadaruim_draw_possible ["a"] (List.length ["a"]) ∧
    piadaruim_line ["a"] (List.length ["a"]) = none :=
  piadaruim_overflow_draw ["a"] (by decide)

/-- C3 amended: for every valid chance triple summing to 100 and every
draw in `[1, 100]`, the loss band is `[1, lose]`, the double band is
`[lose + 1, 99 - triple]` and the triple band is `[100 - triple, 100]`:
the three bands partition `[1, 100]` with no gap and no overlap.  With
`lose = 50` and `triple = 5` the double band is `[51, 94]` and the triple
band `[95, 100]` (the claim placed 95 in the double band).  A positive
double chance is required: with `double = 0` even the claim's own bands
`[1, lose]` and `[100 - triple, 100]` overlap. -/
theorem bets_bands (lose double triple draw : Int)
    (h0 : 0 ≤ lose) (h1 : 1 ≤ double) (h2 : 0 ≤ triple)
    (hsum : lose + double + triple = 100)
    (hd1 : 1 ≤ draw) (hd2 : draw ≤ 100) :
    (bets_outcome lose triple draw = .lose ↔ 1 ≤ draw ∧ draw ≤ lose) ∧
    (bets_outcome lose triple draw = .double ↔
      lose + 1 ≤ draw ∧ draw ≤ 99 - triple) ∧
    (bets_outcome lose triple draw = .triple ↔
      100 - triple ≤ draw ∧ draw ≤ 100) := by
  unfold bets_outcome
  split_ifs with hb1 hb2
  · refine ⟨⟨fun _ => ⟨hd1, hb1⟩, fun _ => rfl⟩, ?_, ?_⟩ <;>
      exact ⟨fun h => absurd h (by decide), fun h => absurd h (by omega)⟩
  · refine ⟨?_, ⟨fun _ => by omega, fun _ => rfl⟩, ?_⟩ <;>
      exact ⟨fun h => absurd h (by decide), fun h => absurd h (by omega)⟩
  · refine ⟨?_, ?_, ⟨fun _ => by omega, fun _ => rfl⟩⟩ <;>
      exact ⟨fun h => absurd h (by decide), fun h => absurd h (by omega)⟩

/-- Witness for C3: at the configured chances 50/45/5, draw 60 falls in
the double band. -/
theorem bets_bands_witness : bets_outcome 50 5 60 = BetsResult.double :=
  (bets_bands 50 45 5 60 (by decide) (by decide) (by decide) (by decide)
    (by decide) (by decide)).2.1.mpr (by decide)

/-- C4 amended: each of the three optional `sfx_add` arguments defaults
to 60 exactly when it is omitted — whatever earlier arguments are
supplied (the arguments are positional, so an omitted one implies the
later ones are omitted too) — and an argument that is present but not
parseable as an integer makes the invocation fail with an uncaught error
at whichever of the three positions it occupies, storing nothing.  The
seven cases below cover every reachable combination of supplied, omitted
and unparseable arguments. -/
theorem sfx_add_opts_behaviour (command : List String) :
    (command.get? 2 = none →
      sfx_add_parse_opts command = .ok ⟨60, 60, 60⟩) ∧
    (∀ a2 v2, command.get? 2 = some a2 → pyInt? a2 = some v2 →
      command.get? 3 = none →
      sfx_add_parse_opts command = .ok ⟨v2, 60, 60⟩) ∧
    (∀ a2 v2 a3 v3, command.get? 2 = some a2 → pyInt? a2 = some v2 →
      command.get? 3 = some a3 → pyInt? a3 = some v3 →
      command.get? 4 = none →
      sfx_add_parse_opts command = .ok ⟨v2, v3, 60⟩) ∧
    (∀ a2 v2 a3 v3 a4 v4, command.get? 2 = some a2 → pyInt? a2 = some v2 →
      command.get? 3 = some a3 → pyInt? a3 = some v3 →
      command.get? 4 = some a4 → pyInt? a4 = some v4 →
      sfx_add_parse_opts command = .ok ⟨v2, v3, v4⟩) ∧
    (∀ a2, command.get? 2 = some a2 → pyInt? a2 = none →
      sfx_add_parse_opts command = .error ()) ∧
    (∀ a2 v2 a3, command.get? 2 = some a2 → pyInt? a2 = some v2 →
      command.get? 3 = some a3 → pyInt? a3 = none →
      sfx_add_parse_opts command = .error ()) ∧
    (∀ a2 v2 a3 v3 a4, command.get? 2 = some a2 → pyInt? a2 = some v2 →
      command.get? 3 = some a3 → pyInt? a3 = some v3 →
      command.get? 4 = some a4 → pyInt? a4 = none →
      sfx_add_parse_opts command = .error ()) := by
  refine ⟨?_, ?_, ?_, ?_, ?_, ?_, ?_⟩
  · intro h2
    have hlen : command.length ≤ 2 := List.get?_eq_none.mp h2
    have h3 : command.get? 3 = none := List.get?_eq_none.mpr (by omega)
    have h4 : command.get? 4 = none := List.get?_eq_none.mpr (by omega)
    simp only [List.get?_eq_getElem?] at h2 h3 h4
    simp [sfx_add_parse_opts, parseOptArg, h2, h3, h4]
  · intro a2 v2 h2 hv2 h3
    have hlen : command.length ≤ 3 := List.get?_eq_none.mp h3
    have h4 : command.get? 4 = none := List.get?_eq_none.mpr (by omega)
    simp only [List.get?_eq_getElem?] at h2 h3 h4
    simp [sfx_add_parse_opts, parseOptArg, h2, h3, h4, hv2]
  · intro a2 v2 a3 v3 h2 hv2 h3 hv3 h4
    simp only [List.get?_eq_getElem?] at h2 h3 h4
    simp [sfx_add_parse_opts, parseOptArg, h2, h3, h4, hv2, hv3]
  · intro a2 v2 a3 v3 a4 v4 h2 hv2 h3 hv3 h4 hv4
    simp only [List.get?_eq_getElem?] at h2 h3 h4
    simp [sfx_add_parse_opts, parseOptArg, h2, h3, h4, hv2, hv3, hv4]
  · intro a2 h2 hv2
    simp only [List.get?_eq_getElem?] at h2
    simp [sfx_add_parse_opts, parseOptArg, h2, hv2]
  · intro a2 v2 a3 h2 hv2 h3 hv3
    simp only [List.get?_eq_getElem?] at h2 h3
    simp [sfx_add_parse_opts, parseOptArg, h2, h3, hv2, hv3]
  · intro a2 v2 a3 v3 a4 h2 hv2 h3 hv3 h4 hv4
    simp only [List.get?_eq_getElem?] at h2 h3 h4
    simp [sfx_add_parse_opts, parseOptArg, h2, h3, h4, hv2, hv3, hv4]

/-- Witness for C4: a supplied cost with the cooldowns omitted defaults
the cooldowns to 60; an unparseable user-cooldown in third position
fails; a fully supplied list (with a Python underscore digit literal) is
stored as given. -/
theorem sfx_add_opts_behaviour_witness :
    sfx_add_parse_opts ["horn", "horn.mp3", "10"] = .ok ⟨10, 60, 60⟩ ∧
    sfx_add_parse_opts ["horn", "horn.mp3", "10", "xx"] = .error () ∧
    sfx_add_parse_opts ["horn", "horn.mp3", "1_0", "20", "30"] =
      .ok ⟨10, 20, 30⟩ :=
  ⟨(sfx_add_opts_behaviour ["horn", "horn.mp3", "10"]).2.1
      "10" 10 rfl rfl rfl,
   (sfx_add_opts_behaviour ["horn", "horn.mp3", "10", "xx"]).2.2.2.2.2.1
      "10" 10 "xx" rfl rfl rfl rfl,
   (sfx_add_opts_behaviour ["horn", "horn.mp3", "1_0", "20", "30"]).2.2.2.1
      "1_0" 10 "20" 20 "30" 30 rfl rfl rfl rfl rfl rfl⟩

/-- C7 amended: decrementing never stores a negative balance — for every
user and every integer quantity the stored result is ≥ 0, and it is
exactly 0 when the current balance is below the quantity; incrementing by
a nonnegative quantity also preserves nonnegativity.  (What fails in the
original claim is increments by a negative quantity, see the
counterexample.) -/
theorem setPoints_same (db : PointsDB) (user : String) (p : Int) :
    setPoints db user p user = some p := by
  simp [setPoints]

theorem points_decrement_floor (db : PointsDB) (user : String) (q : Int) :
    (∀ s, decrement_points db user q user = some s → 0 ≤ s) ∧
    (get_points db user < q → decrement_points db user q user = some 0) ∧
    (0 ≤ q → 0 ≤ get_points db user →
      ∃ s, increment_points db user q user = some s ∧ 0 ≤ s) := by
  cases h : db user with
  | none =>
    refine ⟨?_, ?_, ?_⟩
    · intro s hs
      simp only [decrement_points, h, setPoints_same, Option.some.injEq] at hs
      subst hs
      split_ifs <;> omega
    · intro hlt
      simp only [get_points, h, Option.getD_none] at hlt
      simp only [decrement_points, h, setPoints_same, Option.some.injEq]
      omega
    · intro hq _
      refine ⟨0 + q, ?_, by omega⟩
      simp only [increment_points, h, setPoints_same]
  | some p =>
    refine ⟨?_, ?_, ?_⟩
    · intro s hs
      simp only [decrement_points, h, setPoints_same, Option.some.injEq] at hs
      subst hs
      split_ifs <;> omega
    · intro hlt
      simp only [get_points, h, Option.getD_some] at hlt
      simp only [decrement_points, h, setPoints_same, Option.some.injEq]
      omega
    · intro hq hp
      simp only [get_points, h, Option.getD_some] at hp
      refine ⟨p + q, ?_, by omega⟩
      simp only [increment_points, h, setPoints_same]

/-- Witness for C7: decrementing 100 from alice's 50-point balance stores
exactly 0. -/
theorem points_decrement_floor_witness :
    decrement_points alicePoints50 "alice" 100 "alice" = some 0 :=
  (points_decrement_floor alicePoints50 "alice" 100).2.1 (by decide)

/-- Helper: the accumulator-passing loop of `get_rank` keeps the label of
the last satisfying entry, i.e. the first satisfying entry of the
reversed table. -/
theorem foldl_rank_find? (points : Int) (l : List (String × Int)) :
    ∀ acc : Option String,
      l.foldl (fun acc rm => if points ≥ rm.2 then some rm.1 else acc) acc
        = match l.reverse.find? (fun rm => decide (rm.2 ≤ points)) with
          | some rm => some rm.1
          | none => acc := by
  induction l with
  | nil => intro acc; rfl
  | cons x xs ih =>
    intro acc
    rw [List.foldl_cons, ih]
    rw [List.reverse_cons, List.find?_append]
    cases h : xs.reverse.find? (fun rm => decide (rm.2 ≤ points)) with
    | some rm => simp
    | none =>
      by_cases hx : x.2 ≤ points
      · simp [List.find?, hx, ge_iff_le]
      · simp [List.find?, hx, ge_iff_le]

/-- C8: every sound-effect trigger that finds its command but is rejected
by the global cooldown, the per-user cooldown, or an insufficient balance
leaves the whole bot state unchanged — no reply is sent, no sound is
played, and the invocation counter, both cooldown timestamps and the
points table keep their values; all checks happen before any mutation. -/
theorem sfx_rejection_silent (pe : Bool) (pfx : String) (s : BotState)
    (user content : String) (t : Int) (cmd : String) (rec : SfxRec)
    (hc : isolate_command pfx content = some cmd) (hne : cmd ≠ "")
    (hs : s.sfxCommands.lookup cmd = some rec)
    (hrej : t - (s.global_cd cmd).getD 1 < rec.global_cooldown ∨
      t - (s.user_cd user cmd).getD 1 < rec.user_cooldown ∨
      (pe = true ∧ get_points s.points user < rec.cost)) :
    sfx_command pe pfx s user content t = s := by
  unfold sfx_command
  rw [hc]
  simp only [if_neg hne]
  rw [hs]
  simp only []
  split_ifs with g1 g2 g3 g4 <;> try rfl
  all_goals
    rcases hrej with h | h | h
    · exact absurd h g1
    · exact absurd h g2
    · exact absurd h g3

/-- Witness for C8: alice used `horn` (user cooldown 60 s) at time 950;
her retry at time 1000 is rejected and the state is exactly unchanged. -/
theorem sfx_rejection_silent_witness :
    sfx_command true "!" sfxCooldownState "alice" "!horn" 1000 =
      sfxCooldownState :=
  sfx_rejection_silent true "!" sfxCooldownState "alice" "!horn" 1000
    "horn" ⟨1, "horn.mp3", 0, 60, 60, 0⟩ (by decide) (by decide) (by decide)
    (Or.inr (Or.inl (by decide)))

/-- C2 amended: when the parsed command matches a custom text command, the
dispatcher increments its counter and sends the rendered template — but
it does not stop there: the sound-effect handler still runs on the same
message.  When no sound command shares the name, that extra lookup leaves
the sound tables, cooldowns, points and played sounds unchanged. -/
theorem dispatcher_custom_then_no_sfx (pe : Bool) (pfx : String)
    (s : BotState) (user content : String) (t : Int)
    (cmd : String) (rec : UCmd)
    (hc : isolate_command pfx content = some cmd) (hne : cmd ≠ "")
    (hu : s.userCommands.lookup cmd = some rec)
    (hs : s.sfxCommands.lookup cmd = none) :
    event_command_error pe pfx s user content t =
      { s with
        userCommands := incrementUCmd rec.id s.userCommands,
        sent := s.sent ++
          [renderReply rec.text rec.count user (touserOf content user)] } := by
  unfold event_command_error
  have hu' : user_command pfx s user content =
      { s with
        userCommands := incrementUCmd rec.id s.userCommands,
        sent := s.sent ++
          [renderReply rec.text rec.count user (touserOf content user)] } := by
    unfold user_command
    rw [hc]
    simp only [if_neg hne]
    rw [hu]
  rw [hu']
  unfold sfx_command
  rw [hc]
  simp only [if_neg hne]
  rw [hs]

/-- Witness for C2: with only the custom command `foo` stored, the
dispatcher sends its reply and the sfx pass changes nothing. -/
theorem dispatcher_custom_then_no_sfx_witness :
    event_command_error false "!" dispatchOnlyCustomState "alice" "!foo" 100 =
      { dispatchOnlyCustomState with
        userCommands := incrementUCmd 1 dispatchOnlyCustomState.userCommands,
        sent := dispatchOnlyCustomState.sent ++
          [renderReply "hello" 0 "alice" (touserOf "!foo" "alice")] } :=
  dispatcher_custom_then_no_sfx false "!" dispatchOnlyCustomState "alice"
    "!foo" 100 "foo" ⟨1, "hello", 0⟩ (by decide) (by decide) (by decide)
    (by decide)

/-- Helper: with a whitespace sentinel after a run of non-whitespace
characters, `takeWhile` keeps exactly the run and `dropWhile` stops at the
sentinel. -/
theorem takeWhile_drop_sentinel (cl tl : List Char) (d : Char)
    (hcw : ∀ c ∈ cl, pyIsSpace c = false) (hd : pyIsSpace d = true) :
    (cl ++ d :: tl).takeWhile (fun c => !pyIsSpace c) = cl ∧
    (cl ++ d :: tl).dropWhile (fun c => !pyIsSpace c) = d :: tl := by
  induction cl with
  | nil => simp [List.takeWhile_cons, List.dropWhile_cons, hd]
  | cons c cs ih =>
    have hc : pyIsSpace c = false := hcw c (List.mem_cons_self _ _)
    have ih' := ih (fun x hx => hcw x (List.mem_cons_of_mem _ hx))
    simp [List.takeWhile_cons, List.dropWhile_cons, hc, ih'.1, ih'.2]

/-- Helper: on an all-non-whitespace list, `takeWhile` keeps everything
and `dropWhile` drops everything. -/
theorem takeWhile_drop_token (cl : List Char)
    (hcw : ∀ c ∈ cl, pyIsSpace c = false) :
    cl.takeWhile (fun c => !pyIsSpace c) = cl ∧
    cl.dropWhile (fun c => !pyIsSpace c) = [] := by
  induction cl with
  | nil => simp
  | cons c cs ih =>
    have hc : pyIsSpace c = false := hcw c (List.mem_cons_self _ _)
    have ih' := ih (fun x hx => hcw x (List.mem_cons_of_mem _ hx))
    simp [List.takeWhile_cons, List.dropWhile_cons, hc, ih'.1, ih'.2]

/-- Helper: `split(maxsplit=1)` on a command token followed by one space
and a remainder starting with a non-whitespace character yields the token
and the whole remainder. -/
theorem pySplit1List_cmd_arg (cl rl : List Char) (r : Char) (hc : cl ≠ [])
    (hcw : ∀ c ∈ cl, pyIsSpace c = false) (hrw : pyIsSpace r = false) :
    pySplit1List (cl ++ ' ' :: r :: rl) = [cl, r :: rl] := by
  obtain ⟨c, cs, rfl⟩ := List.exists_cons_of_ne_nil hc
  have hc0 : pyIsSpace c = false := hcw c (List.mem_cons_self _ _)
  have hsp : pyIsSpace ' ' = true := rfl
  have h := takeWhile_drop_sentinel (c :: cs) (r :: rl) ' ' hcw hsp
  rw [List.cons_append] at h
  unfold pySplit1List
  rw [List.cons_append]
  simp [List.dropWhile_cons, hc0, h.1, h.2, hrw, hsp]

/-- Helper: `split(maxsplit=1)` on a lone all-non-whitespace token yields
just that token. -/
theorem pySplit1List_single (cl : List Char) (hc : cl ≠ [])
    (hcw : ∀ c ∈ cl, pyIsSpace c = false) :
    pySplit1List cl = [cl] := by
  obtain ⟨c, cs, rfl⟩ := List.exists_cons_of_ne_nil hc
  have hc0 : pyIsSpace c = false := hcw c (List.mem_cons_self _ _)
  have h := takeWhile_drop_token (c :: cs) hcw
  unfold pySplit1List
  simp [List.dropWhile_cons, hc0, h.1, h.2]

/-- C5 amended: the `$(touser)` substitution value is the entire remainder
of the message after the command token (everything past the first
whitespace run), not just the first argument token; when nothing follows
the command it is the invoking user's name. -/
theorem touser_remainder (cmd rest user : String) (r : Char) (rl : List Char)
    (hc : cmd.toList ≠ []) (hcw : ∀ c ∈ cmd.toList, pyIsSpace c = false)
    (hr : rest.toList = r :: rl) (hrw : pyIsSpace r = false) :
    touserOf (cmd ++ " " ++ rest) user = rest ∧
    touserOf cmd user = user := by
  constructor
  · unfold touserOf pySplit1
    have hr' : rest.data = r :: rl := hr
    have hl : (cmd ++ " " ++ rest).toList = cmd.toList ++ ' ' :: r :: rl := by
      simp [hr']
    have hback : (r :: rl).asString = rest := by
      rw [← hr]
      rfl
    rw [hl, pySplit1List_cmd_arg cmd.toList rl r hc hcw hrw]
    show (r :: rl).asString = rest
    exact hback
  · unfold touserOf pySplit1
    rw [pySplit1List_single cmd.toList hc hcw]
    rfl

/-- Witness for C5: for the message `!hug alice bob` the substitution
value is the remainder `alice bob`; for the bare `!hug` it is the invoking
user `carol`. -/
theorem touser_remainder_witness :
    touserOf ("!hug" ++ " " ++ "alice bob") "carol" = "alice bob" ∧
    touserOf "!hug" "carol" = "carol" :=
  touser_remainder "!hug" "alice bob" "carol" 'a' "lice bob".toList
    (by decide) (by decide) (by decide) (by decide)

/-- C6 amended: a picked winner is removed from the participant pool and
can only be selected again after re-entering it, which is possible because
`raffle_add_participant` checks the current pool but not the picked list.
Formally: for every user absent from the pool and every event sequence
containing no keyword message from that user, the number of times the user
appears in the picked list never grows and the user stays out of the
pool. -/
theorem raffle_no_repick_without_reentry (u : String)
    (tr : List RaffleEvent) :
    ∀ s : RaffleState, u ∉ s.participants →
      (∀ c b, RaffleEvent.msg u c b ∉ tr) →
      (raffle_run s tr).picked.count u ≤ s.picked.count u ∧
      u ∉ (raffle_run s tr).participants := by
  induction tr with
  | nil => exact fun s hu _ => ⟨le_refl _, hu⟩
  | cons e tr ih =>
    intro s hu hmsg
    have hmsg' : ∀ c b, RaffleEvent.msg u c b ∉ tr :=
      fun c b hmem => hmsg c b (List.mem_cons_of_mem _ hmem)
    have hstep : u ∉ (raffle_step s e).participants ∧
        (raffle_step s e).picked.count u ≤ s.picked.count u := by
      cases e with
      | start kw =>
        exact ⟨by simp [raffle_step, raffle_start],
          by simp [raffle_step, raffle_start]⟩
      | startsub kw =>
        exact ⟨by simp [raffle_step, raffle_start],
          by simp [raffle_step, raffle_start]⟩
      | stop => exact ⟨hu, le_refl _⟩
      | pick i =>
        simp only [raffle_step]
        unfold raffle_pick
        split_ifs with hlen
        · cases hg : s.participants.get? i with
          | none =>
            simp only [hg]
            exact ⟨hu, le_refl _⟩
          | some w =>
            have hw : w ∈ s.participants := List.get?_mem hg
            have hne : w ≠ u := fun hwu => hu (hwu ▸ hw)
            simp only [hg]
            refine ⟨fun hmem => hu (List.mem_of_mem_erase hmem), ?_⟩
            simp [List.count_append, List.count_singleton', hne]
        · exact ⟨hu, le_refl _⟩
      | msg v c b =>
        have hvu : v ≠ u := fun hv => hmsg c b (by
          rw [hv]
          exact List.mem_cons_self _ _)
        simp only [raffle_step]
        unfold raffle_add_participant
        split_ifs <;>
          first
          | exact ⟨hu, le_refl _⟩
          | (refine ⟨?_, le_refl _⟩
             intro hmem
             rcases List.mem_append.mp hmem with hmem | hmem
             · exact hu hmem
             · exact hvu (List.mem_singleton.mp hmem).symm)
    have hrun : raffle_run s (e :: tr) = raffle_run (raffle_step s e) tr := rfl
    rw [hrun]
    obtain ⟨h1, h2⟩ := ih (raffle_step s e) hstep.1 hmsg'
    exact ⟨le_trans h1 hstep.2, h2⟩

/-- Witness for C6: right after `a` was picked (and with `b` still in the
pool), a further pick and a stop never pick `a` again while `a` sends no
keyword message. -/
theorem raffle_no_repick_witness :
    (raffle_run raffleAfterPickState [.pick 0, .stop]).picked.count "a" ≤
      raffleAfterPickState.picked.count "a" ∧
    "a" ∉ (raffle_run raffleAfterPickState [.pick 0, .stop]).participants :=
  raffle_no_repick_without_reentry "a" [.pick 0, .stop] raffleAfterPickState
    (by decide)
    (by
      intro c b hmem
      simp at hmem)

/-- C9: for every rank table and point value, `get_rank` returns the label
of the last entry in table order whose minimum is ≤ the points, and the
"no rank" label `"Sem rank"` when the table is empty or every minimum
exceeds the points — the behaviour `rank_spec` transcribes from the
specification. -/
theorem get_rank_eq_rank_spec (ranks : List (String × Int)) (points : Int) :
    get_rank ranks points = rank_spec ranks points := by
  unfold get_rank rank_spec
  rw [foldl_rank_find?]
  cases h : ranks.reverse.find? (fun rm => decide (rm.2 ≤ points)) <;> simp

end HappyFool
